import Mathlib

/-!
A shallow embedding of the trading-algo backtesting engine
(`backtester.py`, `strategy/survivor_backtest.py`) and proofs of the
specification's testable properties.

Money amounts and prices are modelled as exact rationals (`ℚ`), position
quantities as integers, the Python `dict` of positions as an insertion-ordered
association list with unique keys.
-/

namespace TradingAlgo

/-- One entry of `Backtester.positions`: the Python dict maps a trading symbol
to `{'quantity': q}`; we keep the signed quantity directly. -/
abbrev Positions := List (String × Int)

/-- Look up the signed quantity held for `sym`, `0` when no entry exists. -/
def posQty (ps : Positions) (sym : String) : Int :=
  match ps with
  | [] => 0
  | (k, q) :: rest => if k = sym then q else posQty rest sym

/-- `if symbol in self.positions: positions[symbol]['quantity'] += d
else: self.positions[symbol] = {'quantity': d}` — add `d` to the existing
entry for `sym`, or append a fresh entry holding `d`. -/
def posApply (ps : Positions) (sym : String) (d : Int) : Positions :=
  match ps with
  | [] => [(sym, d)]
  | (k, q) :: rest => if k = sym then (k, q + d) :: rest else (k, q) :: posApply rest sym d

/-- The mutable state of `Backtester` (fields set in `__init__`). -/
structure BState where
  initial_capital : ℚ
  cash : ℚ
  positions : Positions
  portfolio_value : ℚ
  history : List (Nat × ℚ)
  deriving Repr, DecidableEq

/-- `Backtester.__init__(strategy_class, data, initial_capital)`. -/
def initBacktester (initial_capital : ℚ) : BState :=
  { initial_capital := initial_capital
    cash := initial_capital
    positions := []
    portfolio_value := initial_capital
    history := [] }

/-- `Backtester.place_order(symbol, quantity, price, transaction_type, ...)`:
SELL adds `quantity*price` to cash and subtracts `quantity` from the symbol's
position; BUY does the opposite; any other transaction type only logs.
Always returns the dummy order id `1`. -/
def place_order (s : BState) (symbol : String) (quantity : Int) (price : ℚ)
    (transaction_type : String) : BState × Nat :=
  if transaction_type = "SELL" then
    ({ s with cash := s.cash + quantity * price
              positions := posApply s.positions symbol (-quantity) }, 1)
  else if transaction_type = "BUY" then
    ({ s with cash := s.cash - quantity * price
              positions := posApply s.positions symbol quantity }, 1)
  else (s, 1)

/-- `Backtester._update_portfolio_value(current_price)`: reset
`portfolio_value` to `cash`, then add `quantity * current_price` for every
position, in dict order. -/
def updatePortfolioValue (s : BState) (current_price : ℚ) : BState :=
  { s with portfolio_value :=
      s.positions.foldl (fun acc kv => acc + (kv.2 : ℚ) * current_price) s.cash }

/-- `Backtester.get_quote(symbol)` returns `{symbol: {'last_price': 20}}`;
we model the `last_price` it carries. -/
def get_quote (_symbol : String) : ℚ := 20

/-- An order intent issued by the strategy to `broker.place_order` during
`on_ticks_update`. -/
structure OrderIntent where
  symbol : String
  quantity : Int
  price : ℚ
  transaction_type : String
  deriving Repr, DecidableEq

/-- Execute a list of order intents against the broker, in order. -/
def execOrders (s : BState) (os : List OrderIntent) : BState :=
  os.foldl (fun st o => (place_order st o.symbol o.quantity o.price o.transaction_type).1) s

/-- A strategy abstracted as a step function: given its private state and the
tick's `last_price` it returns its new state and the orders it places.
(`SurvivorBacktestStrategy.on_ticks_update` is inherited from the live
`SurvivorStrategy`; `Backtester.run` only observes it through these calls.) -/
abbrev Strategy (σ : Type) := σ → ℚ → σ × List OrderIntent

/-- One iteration of the loop in `Backtester.run`: feed the tick to the
strategy, execute the orders it placed, mark to market at the tick price,
append `{timestamp, portfolio_value}` to history. -/
def runStep {σ : Type} (strat : Strategy σ) (acc : BState × σ) (tick : Nat × ℚ) :
    BState × σ :=
  let stepped := strat acc.2 tick.2
  let marked := updatePortfolioValue (execOrders acc.1 stepped.2) tick.2
  ({ marked with history := marked.history ++ [(tick.1, marked.portfolio_value)] },
   stepped.1)

/-- `Backtester.run()`: iterate the feed in order, one `runStep` per tick. -/
def run {σ : Type} (strat : Strategy σ) (ticks : List (Nat × ℚ)) (s : BState) (st : σ) :
    BState × σ :=
  ticks.foldl (runStep strat) (s, st)

/-- Sum of `quantity * price` over the position book. -/
def markSum (ps : Positions) (price : ℚ) : ℚ :=
  (ps.map (fun kv => (kv.2 : ℚ) * price)).sum

theorem foldl_markSum (ps : Positions) (price : ℚ) (acc : ℚ) :
    ps.foldl (fun acc kv => acc + (kv.2 : ℚ) * price) acc = acc + markSum ps price := by
  induction ps generalizing acc with
  | nil => simp [markSum]
  | cons kv rest ih =>
    simp only [List.foldl_cons, ih, markSum, List.map_cons, List.sum_cons]
    ring

/-- C1: After every mark-to-market call (`Backtester._update_portfolio_value`),
the recorded `portfolio_value` equals `cash` plus the sum over all positions of
the position's quantity times the mark price of that position's symbol — in
this engine the mark price of every symbol at a call with reference price `p`
is `p` itself — with exact equality in exact (rational) arithmetic, for every
portfolio state and every tick price. -/
theorem portfolio_value_invariant (s : BState) (p : ℚ) :
    (updatePortfolioValue s p).portfolio_value = s.cash + markSum s.positions p := by
  simp [updatePortfolioValue, foldl_markSum]

/-- Total signed quantity held across the position book. -/
def totalQty (ps : Positions) : Int := (ps.map Prod.snd).sum

theorem markSum_eq_price_mul_totalQty (ps : Positions) (p : ℚ) :
    markSum ps p = p * (totalQty ps : ℚ) := by
  induction ps with
  | nil => simp [markSum, totalQty]
  | cons kv rest ih =>
    have h1 : markSum (kv :: rest) p = (kv.2 : ℚ) * p + markSum rest p := by
      simp [markSum]
    have h2 : totalQty (kv :: rest) = kv.2 + totalQty rest := by
      simp [totalQty]
    rw [h1, ih, h2]
    push_cast
    ring

/-- C10: `_update_portfolio_value` marks every open position at the single
underlying price passed in, ignoring the position's symbol and the per-symbol
quote (`get_quote` always answers the fixed price 20): after
`_update_portfolio_value(p)` the portfolio value equals
`cash + p × (sum of all position quantities)`, and the call changes nothing
except the `portfolio_value` field — cash, positions and history are
untouched. -/
theorem updatePortfolioValue_marks_at_single_price (s : BState) (p : ℚ) :
    updatePortfolioValue s p
      = { s with portfolio_value := s.cash + p * (totalQty s.positions : ℚ) }
    ∧ (updatePortfolioValue s p).cash = s.cash
    ∧ (updatePortfolioValue s p).positions = s.positions
    ∧ (updatePortfolioValue s p).history = s.history
    ∧ (∀ sym : String, get_quote sym = 20) := by
  refine ⟨?_, rfl, rfl, rfl, fun _ => rfl⟩
  simp [updatePortfolioValue, foldl_markSum, markSum_eq_price_mul_totalQty]

theorem posQty_posApply (ps : Positions) (sym sym' : String) (d : Int) :
    posQty (posApply ps sym d) sym' = posQty ps sym' + (if sym' = sym then d else 0) := by
  induction ps with
  | nil =>
    by_cases h : sym' = sym
    · simp [posApply, posQty, h]
    · simp [posApply, posQty, h, Ne.symm h]
  | cons kv rest ih =>
    obtain ⟨k, q⟩ := kv
    by_cases hk : k = sym
    · subst hk
      by_cases h' : k = sym'
      · subst h'
        simp [posApply, posQty]
      · simp [posApply, posQty, h', Ne.symm h']
    · by_cases h' : k = sym'
      · subst h'
        simp [posApply, posQty, hk, Ne.symm hk]
      · simp [posApply, posQty, hk, h', ih]

/-- C3: a SELL of `q` at `p` followed by a BUY of `q` at `p` on the same
symbol returns both the cash balance and that symbol's position quantity to
their pre-trade values, for every portfolio state, symbol, quantity and price
(exact rational arithmetic). -/
theorem sell_buy_round_trip (s : BState) (sym : String) (q : Int) (p : ℚ) :
    ((place_order (place_order s sym q p "SELL").1 sym q p "BUY").1).cash = s.cash
    ∧ posQty ((place_order (place_order s sym q p "SELL").1 sym q p "BUY").1).positions sym
        = posQty s.positions sym := by
  constructor
  · simp [place_order]
  · simp [place_order, posQty_posApply]

/-- C3 witness at a concrete state: selling then buying 50 units at price 20
on a fresh book restores cash 100000 and a zero position. -/
theorem sell_buy_round_trip_witness :
    ((place_order (place_order (initBacktester 100000) "NIFTYCE24700" 50 20 "SELL").1
        "NIFTYCE24700" 50 20 "BUY").1).cash = (initBacktester 100000).cash
    ∧ posQty ((place_order (place_order (initBacktester 100000) "NIFTYCE24700" 50 20 "SELL").1
        "NIFTYCE24700" 50 20 "BUY").1).positions "NIFTYCE24700"
        = posQty (initBacktester 100000).positions "NIFTYCE24700" :=
  sell_buy_round_trip (initBacktester 100000) "NIFTYCE24700" 50 20

/-- `SurvivorBacktestStrategy._find_nifty_symbol_from_gap(option_type, ltp, gap)`:
`target_strike = ltp + gap` for `'CE'`, `ltp - gap` otherwise, and the dummy
instrument `{'tradingsymbol': f'NIFTY{option_type}{target_strike}',
'strike': target_strike}`. Returned as (tradingsymbol, strike). -/
def find_nifty_symbol_from_gap (option_type : String) (ltp gap : Int) : String × Int :=
  let target_strike := ltp + (if option_type = "CE" then gap else -gap)
  (s!"NIFTY{option_type}{target_strike}", target_strike)

/-- C7: `_find_nifty_symbol_from_gap` computes `target_strike = ltp + gap`
for `'CE'` and `ltp - gap` for `'PE'`, derives the trading symbol
deterministically from `(option_type, target_strike)` alone, and in particular
`('CE', 24500, 200)` yields strike 24700 and `('PE', 24500, 200)` yields
24300. -/
theorem find_nifty_symbol_from_gap_spec :
    (∀ ltp gap : Int,
        (find_nifty_symbol_from_gap "CE" ltp gap).2 = ltp + gap
        ∧ (find_nifty_symbol_from_gap "PE" ltp gap).2 = ltp - gap)
    ∧ (∀ (option_type : String) (ltp gap : Int),
        (find_nifty_symbol_from_gap option_type ltp gap).1
          = "NIFTY" ++ option_type ++ toString (find_nifty_symbol_from_gap option_type ltp gap).2)
    ∧ (find_nifty_symbol_from_gap "CE" 24500 200).2 = 24700
    ∧ (find_nifty_symbol_from_gap "PE" 24500 200).2 = 24300 := by
  refine ⟨fun ltp gap => ⟨rfl, ?_⟩, fun option_type ltp gap => ?_, rfl, rfl⟩
  · simp [find_nifty_symbol_from_gap]
    ring
  · simp [find_nifty_symbol_from_gap, toString]

/-- C4 amended: `place_order` is total and performs no input validation at
all: for every state, symbol, quantity and price — non-positive values
included — a SELL adds `quantity×price` to cash and subtracts `quantity` from
the symbol's position, a BUY does the reverse, and the call always succeeds
(there is no `InvalidOrderError` and no order is ever dropped). -/
theorem place_order_total_no_validation (s : BState) (sym : String) (q : Int) (p : ℚ) :
    (place_order s sym q p "SELL").1.cash = s.cash + q * p
    ∧ (place_order s sym q p "BUY").1.cash = s.cash - q * p
    ∧ posQty (place_order s sym q p "SELL").1.positions sym = posQty s.positions sym - q
    ∧ posQty (place_order s sym q p "BUY").1.positions sym = posQty s.positions sym + q := by
  refine ⟨by simp [place_order], by simp [place_order], ?_, ?_⟩
  · simp [place_order, posQty_posApply]
    omega
  · simp [place_order, posQty_posApply]

/-- C4 counterexample: the malformed order SELL −5 units at price 10 is not
rejected and not dropped — on a fresh book with cash 100000 it is executed,
leaving cash 99950 (≠ 100000, so cash did not stay unchanged as the claim
requires). -/
theorem place_order_malformed_executed_counterexample :
    (place_order (initBacktester 100000) "X" (-5) 10 "SELL").1.cash = 99950
    ∧ ((99950 : ℚ) ≠ 100000) := by
  refine ⟨?_, by norm_num⟩
  norm_num [place_order, initBacktester]

/-- C9 amended: `place_order` returns the constant dummy order id 1 on every
call, whatever the state and arguments: successive identifiers are therefore
equal, never strictly increasing. -/
theorem place_order_constant_id (s : BState) (sym : String) (q : Int) (p : ℚ)
    (tt : String) : (place_order s sym q p tt).2 = 1 := by
  by_cases h1 : tt = "SELL" <;> by_cases h2 : tt = "BUY" <;> simp [place_order, h1, h2]

/-- C9 counterexample: two successive successful `place_order` calls both
return id 1, and 1 is not greater than 1, so the identifiers returned within
one run are not strictly increasing. -/
theorem order_ids_not_increasing_counterexample :
    (place_order (initBacktester 100000) "A" 50 20 "SELL").2 = 1
    ∧ (place_order (place_order (initBacktester 100000) "A" 50 20 "SELL").1
        "B" 50 20 "SELL").2 = 1
    ∧ ¬ (1 : Nat) < 1 := by
  exact ⟨rfl, rfl, by decide⟩

/-- The numbers `Backtester.generate_performance_report` prints when history
is non-empty, plus the DataFrame (the history) it returns. -/
structure Report where
  initial_capital : ℚ
  final_portfolio_value : ℚ
  total_return_pct : ℚ
  df : List (Nat × ℚ)
  deriving Repr, DecidableEq

/-- `Backtester.generate_performance_report()`: with an empty history it
prints "No trading history" and returns `None` (here `none`); otherwise it
computes `total_return = (portfolio_value / initial_capital - 1) * 100` and
returns the report. -/
def generate_performance_report (s : BState) : Option Report :=
  if s.history = [] then none
  else some { initial_capital := s.initial_capital
              final_portfolio_value := s.portfolio_value
              total_return_pct := (s.portfolio_value / s.initial_capital - 1) * 100
              df := s.history }

/-- C6: an empty feed leaves the history empty, reporting on the resulting
state signals the distinct "no data" condition `none` rather than any numeric
return, and in general the reporting result is `none` exactly when the
history is empty — an empty history is distinguished from a populated one by
the constructor (type) of the `Option` result, not by a numeric value. -/
theorem empty_feed_no_data {σ : Type} (strat : Strategy σ) (cap : ℚ) (st : σ) :
    (run strat [] (initBacktester cap) st).1.history = []
    ∧ generate_performance_report (run strat [] (initBacktester cap) st).1 = none
    ∧ (∀ s : BState, generate_performance_report s = none ↔ s.history = []) := by
  refine ⟨rfl, rfl, fun s => ?_⟩
  by_cases h : s.history = [] <;> simp [generate_performance_report, h]

/-- A strategy configuration value: a string- or numeric-valued parameter. -/
inductive CVal where
  | str : String → CVal
  | num : ℚ → CVal
  deriving Repr, DecidableEq

/-- The flat configuration mapping handed to
`SurvivorBacktestStrategy.__init__`. -/
abbrev Config := List (String × CVal)

/-- Dictionary lookup in a configuration. -/
def cfgLookup (cfg : Config) (key : String) : Option CVal :=
  match cfg with
  | [] => none
  | (k, v) :: rest => if k = key then some v else cfgLookup rest key

/-- `Backtester._get_default_config()`. -/
def defaultConfig : Config :=
  [("symbol_initials", .str "NIFTY25JAN30"),
   ("index_symbol", .str "NSE:NIFTY 50"),
   ("pe_gap", .num 25), ("ce_gap", .num 25),
   ("pe_symbol_gap", .num 200), ("ce_symbol_gap", .num 200),
   ("pe_reset_gap", .num 50), ("ce_reset_gap", .num 50),
   ("pe_quantity", .num 50), ("ce_quantity", .num 50),
   ("min_price_to_sell", .num 15), ("sell_multiplier_threshold", .num 3),
   ("exchange", .str "NFO"), ("order_type", .str "MARKET"),
   ("product_type", .str "NRML"), ("trans_type", .str "SELL"),
   ("pe_start_point", .num 0), ("ce_start_point", .num 0)]

/-- The attributes a freshly constructed `SurvivorBacktestStrategy` holds:
the `strat_var_*` attributes (the stored config), the copied
`symbol_initials`, the fixed strike difference, and the fields set by
`_initialize_state`. -/
structure SurvivorState where
  strat_vars : Config
  symbol_initials : CVal
  strike_difference : Int
  pe_reset_gap_flag : Int
  ce_reset_gap_flag : Int
  nifty_pe_last_value : Int
  nifty_ce_last_value : Int
  deriving Repr, DecidableEq

/-- `SurvivorBacktestStrategy.__init__(broker, config, order_manager)`: the
loop `setattr(self, f'strat_var_k', v)` stores every key present in
`config`; the line `self.symbol_initials = self.strat_var_symbol_initials`
then raises `AttributeError` — construction fails — exactly when
`symbol_initials` is absent from `config`. `strike_difference` is fixed at
50 and `_initialize_state` sets both reset-gap flags to 0 and both last
values to 24500. No other configuration key is read during construction. -/
def survivorBacktestInit (config : Config) : Except String SurvivorState :=
  match cfgLookup config "symbol_initials" with
  | none => .error "AttributeError: no attribute strat_var_symbol_initials"
  | some v =>
      .ok { strat_vars := config
            symbol_initials := v
            strike_difference := 50
            pe_reset_gap_flag := 0
            ce_reset_gap_flag := 0
            nifty_pe_last_value := 24500
            nifty_ce_last_value := 24500 }

/-- The default configuration with the required put-leg gap threshold
`pe_gap` removed. -/
def configMissingPeGap : Config := defaultConfig.filter (fun kv => kv.1 != "pe_gap")

/-- C8 amended: construction fails — with the `AttributeError` raised when
`strat_var_symbol_initials` is read back — exactly when the key
`symbol_initials` is absent; that is the only configuration key read during
construction, so any other missing key (gap thresholds included) leaves
construction successful and can only fail later, per tick. -/
theorem init_fails_iff_missing_symbol_initials (config : Config) :
    (∃ e, survivorBacktestInit config = .error e)
      ↔ cfgLookup config "symbol_initials" = none := by
  cases h : cfgLookup config "symbol_initials" <;> simp [survivorBacktestInit, h]

/-- C8 counterexample: the default configuration with the required gap
threshold `pe_gap` removed is missing a required key, yet
`SurvivorBacktestStrategy.__init__` succeeds — no configuration error is
raised at construction time. -/
theorem init_missing_gap_counterexample :
    cfgLookup configMissingPeGap "pe_gap" = none
    ∧ ∃ st, survivorBacktestInit configMissingPeGap = .ok st :=
  ⟨rfl, ⟨_, rfl⟩⟩

/-- A strategy that on every tick places exactly one SELL of 50 units at
price 20 on the symbol of the spec's worked example (the fill price 20 is
the fixed price used by `SurvivorBacktestStrategy._place_order`). -/
def exampleSellStrategy : Strategy Unit :=
  fun _ _ => ((), [{ symbol := "NIFTY-CE-24525", quantity := 50, price := 20,
                     transaction_type := "SELL" }])

/-- The spec example run: initial capital 100000 and a single tick of price
24500 at timestamp 0. -/
def exampleRun : BState :=
  (run exampleSellStrategy [(0, 24500)] (initBacktester 100000) ()).1

/-- C2 counterexample: in the worked example (capital 100000, one tick at
24500, one SELL of 50 @ 20), cash is 101000 and the position is −50 as
claimed, but the recorded portfolio value is −1124000, not 100000:
mark-to-market uses the tick price 24500, not the quote/fill price 20. -/
theorem example_recorded_value_counterexample :
    exampleRun.cash = 101000
    ∧ posQty exampleRun.positions "NIFTY-CE-24525" = -50
    ∧ exampleRun.history = [(0, -1124000)]
    ∧ ((-1124000 : ℚ) ≠ 100000) := by
  refine ⟨?_, ?_, ?_, by norm_num⟩ <;>
    simp [exampleRun, run, runStep, exampleSellStrategy, execOrders, place_order,
      updatePortfolioValue, initBacktester, posQty, posApply] <;>
    norm_num

/-- C2 amended: for every strategy that, on the single tick of price 24500,
places exactly one SELL of 50 units at price 20 on one symbol, the post-tick
state has cash 101000 and position quantity −50 for that symbol, and the
portfolio value recorded for the tick is
101000 + (−50 × 24500) = −1124000 — because `run` marks the position at the
tick price 24500 rather than at the fill/quote price 20. -/
theorem single_sell_tick_outcome {σ : Type} (strat : Strategy σ) (st st' : σ)
    (h : strat st 24500
          = (st', [{ symbol := "NIFTY-CE-24525", quantity := 50, price := 20,
                     transaction_type := "SELL" }])) :
    ((run strat [(0, 24500)] (initBacktester 100000) st).1).cash = 101000
    ∧ posQty ((run strat [(0, 24500)] (initBacktester 100000) st).1).positions
        "NIFTY-CE-24525" = -50
    ∧ ((run strat [(0, 24500)] (initBacktester 100000) st).1).history
        = [(0, -1124000)] := by
  have hrun : run strat [(0, 24500)] (initBacktester 100000) st
      = runStep strat (initBacktester 100000, st) (0, 24500) := rfl
  rw [hrun]
  simp only [runStep, h]
  refine ⟨?_, ?_, ?_⟩ <;>
    simp [execOrders, place_order, updatePortfolioValue, initBacktester,
          posQty, posApply] <;> norm_num

/-- C2 amended-claim witness: the outcome instantiated at the concrete
example strategy. -/
theorem single_sell_tick_outcome_witness :
    ((run exampleSellStrategy [(0, 24500)] (initBacktester 100000) ()).1).cash = 101000
    ∧ posQty ((run exampleSellStrategy [(0, 24500)] (initBacktester 100000) ()).1).positions
        "NIFTY-CE-24525" = -50
    ∧ ((run exampleSellStrategy [(0, 24500)] (initBacktester 100000) ()).1).history
        = [(0, -1124000)] :=
  single_sell_tick_outcome exampleSellStrategy () () rfl

theorem place_order_history (s : BState) (sym : String) (q : Int) (p : ℚ) (tt : String) :
    (place_order s sym q p tt).1.history = s.history := by
  by_cases h1 : tt = "SELL" <;> by_cases h2 : tt = "BUY" <;> simp [place_order, h1, h2]

theorem execOrders_history (os : List OrderIntent) (s : BState) :
    (execOrders s os).history = s.history := by
  induction os generalizing s with
  | nil => rfl
  | cons o os ih =>
    show (execOrders (place_order s o.symbol o.quantity o.price o.transaction_type).1
            os).history = s.history
    rw [ih, place_order_history]

theorem runStep_history {σ : Type} (strat : Strategy σ) (s : BState) (st : σ)
    (t : Nat × ℚ) :
    (runStep strat (s, st) t).1.history
      = s.history ++ [(t.1, (runStep strat (s, st) t).1.portfolio_value)] := by
  simp [runStep, updatePortfolioValue, execOrders_history]

/-- The history entries appended by `run`, one per tick: the tick's timestamp
paired with the portfolio value right after that tick's strategy reaction and
mark-to-market. -/
def trace {σ : Type} (strat : Strategy σ) :
    List (Nat × ℚ) → BState → σ → List (Nat × ℚ)
  | [], _, _ => []
  | t :: ts, s, st =>
    (t.1, (runStep strat (s, st) t).1.portfolio_value)
      :: trace strat ts (runStep strat (s, st) t).1 (runStep strat (s, st) t).2

theorem run_history_eq {σ : Type} (strat : Strategy σ) (ticks : List (Nat × ℚ))
    (s : BState) (st : σ) :
    (run strat ticks s st).1.history = s.history ++ trace strat ticks s st := by
  induction ticks generalizing s st with
  | nil => simp [run, trace]
  | cons t ts ih =>
    have hcons : run strat (t :: ts) s st
        = run strat ts (runStep strat (s, st) t).1 (runStep strat (s, st) t).2 := rfl
    rw [hcons, ih, runStep_history]
    simp [trace]

theorem trace_length {σ : Type} (strat : Strategy σ) (ticks : List (Nat × ℚ))
    (s : BState) (st : σ) :
    (trace strat ticks s st).length = ticks.length := by
  induction ticks generalizing s st with
  | nil => rfl
  | cons t ts ih => simp [trace, ih]

theorem trace_timestamps {σ : Type} (strat : Strategy σ) (ticks : List (Nat × ℚ))
    (s : BState) (st : σ) :
    (trace strat ticks s st).map Prod.fst = ticks.map Prod.fst := by
  induction ticks generalizing s st with
  | nil => rfl
  | cons t ts ih => simp [trace, ih]

theorem trace_getElem {σ : Type} (strat : Strategy σ) (ticks : List (Nat × ℚ))
    (s : BState) (st : σ) (i : Nat) (t : Nat × ℚ) (h : ticks[i]? = some t) :
    (trace strat ticks s st)[i]?
      = some (t.1, (run strat (ticks.take (i + 1)) s st).1.portfolio_value) := by
  induction ticks generalizing s st i with
  | nil => simp at h
  | cons t' ts ih =>
    cases i with
    | zero =>
      simp only [List.getElem?_cons_zero, Option.some.injEq] at h
      subst h
      simp [trace, List.take, run]
    | succ i =>
      simp only [List.getElem?_cons_succ] at h
      simpa [trace] using
        ih (runStep strat (s, st) t').1 (runStep strat (s, st) t').2 i h

/-- C5: for every feed and every strategy, `run` appends exactly one history
entry per tick, in feed order: the final history is the prior history
extended by the run's trace, whose length equals the feed's, whose
timestamps are the feed's timestamps in the same order, and whose `i`-th
value is the portfolio value right after the first `i+1` ticks have been
processed (strategy reaction, then mark-to-market at that tick's price). -/
theorem run_history_per_tick {σ : Type} (strat : Strategy σ) (ticks : List (Nat × ℚ))
    (s : BState) (st : σ) :
    (run strat ticks s st).1.history = s.history ++ trace strat ticks s st
    ∧ (trace strat ticks s st).length = ticks.length
    ∧ (trace strat ticks s st).map Prod.fst = ticks.map Prod.fst
    ∧ ∀ i t, ticks[i]? = some t →
        (trace strat ticks s st)[i]?
          = some (t.1, (run strat (ticks.take (i + 1)) s st).1.portfolio_value) :=
  ⟨run_history_eq strat ticks s st, trace_length strat ticks s st,
   trace_timestamps strat ticks s st,
   fun i t h => trace_getElem strat ticks s st i t h⟩

/-- A strategy that never places an order. -/
def holdStrategy : Strategy Unit := fun u _ => (u, [])

/-- C5 witness: on the concrete two-tick feed with no orders placed, the
first recorded entry carries timestamp 1 and portfolio value 100000. -/
theorem run_history_per_tick_witness :
    (trace holdStrategy [(1, 10), (2, 11)] (initBacktester 100000) ())[0]?
      = some (1, 100000) := by
  have h := (run_history_per_tick holdStrategy [(1, 10), (2, 11)]
      (initBacktester 100000) ()).2.2.2 0 (1, 10) rfl
  rw [h]
  rfl

end TradingAlgo
